import Mathlib

set_option maxRecDepth 4096
set_option maxHeartbeats 1000000

/-!
Shallow embedding of the rust-asn1-der streaming DER decoder
(src/lib.rs, src/error.rs, src/integer.rs, src/object_identifier.rs,
src/printable_string.rs) and proofs of the specification claims.

Modelling conventions:
* Rust byte slices become `List Nat` (each element intended `< 256`; the
  arithmetic below never depends on the bound except where a hypothesis
  states it).
* `usize` values become `Nat`.  The source is written so that `usize`
  arithmetic on positions can never wrap (the bounds checks in `consume`
  and `read_structure` are formulated subtraction-first for exactly that
  reason), so no `% 2 ^ 64` is needed on positions; the `u32` accumulator
  of the object-identifier digit iterator genuinely can wrap and is
  modelled with an explicit `% 2 ^ 32`.
* Fallible operations return `Except Error α`; the Rust methods mutate
  `&mut self`, so every operation here also returns the successor
  `Parser` state — including on the error path, where the partially
  advanced state is kept, exactly as the partially mutated `self`
  persists in Rust.
-/

namespace Asn1

/-- Decode-failure kinds of `src/error.rs`.  The `StructureOverrun` variant
is constructed by `Parser::next` at src/lib.rs line 219 but is absent from
the `Error` enum declaration in src/error.rs (lines 2–15), so the crate as
given does not compile; it is included here because lib.rs unambiguously
intends it to exist. -/
inductive Error where
  | EOF
  | OverlongLength
  | InvalidLengthEncoding
  | UnrecognizedType
  | NotImplemented
  | IncorrectLength
  | Malformed
  | MalformedObjectIdentifier
  | ObjectIdentifierTooLarge
  | InvalidUTF8
  | InvalidPrintableString
  | StructureOverrun
  deriving DecidableEq

/-- Integer view accessor `Integer::as_u8` (src/integer.rs): `None` for a
slice longer than one byte, otherwise `self.0.get(0)`. -/
def Integer.as_u8 (self : List Nat) : Option Nat :=
  if self.length > 1 then none
  else self.get? 0

/-- Integer view accessor `Integer::as_u32` (src/integer.rs): `None` for a
slice longer than four bytes, otherwise the big-endian fold in wrapping
`u32` arithmetic (the shift is truncated to 32 bits as in Rust; with at
most four bytes `< 256` the truncation never fires). -/
def Integer.as_u32 (self : List Nat) : Option Nat :=
  if self.length > 4 then none
  else some (self.foldl (fun accum b => ((accum <<< 8) % 4294967296) ||| b) 0)

/-- Integer view accessor `Integer::as_u64` (src/integer.rs): `None` for a
slice longer than eight bytes, otherwise the big-endian fold in wrapping
`u64` arithmetic. -/
def Integer.as_u64 (self : List Nat) : Option Nat :=
  if self.length > 8 then none
  else some (self.foldl (fun accum b => ((accum <<< 8) % 18446744073709551616) ||| b) 0)

/-- Bitmap `PRINTABLE_CHAR_MASK` of src/printable_string.rs: eight 32-bit
words, bit `b % 32` of word `b / 32` tells whether byte `b` is printable. -/
def PRINTABLE_CHAR_MASK : List Nat :=
  [0x00000000, 0xa7fffb81, 0x07fffffe, 0x07fffffe,
   0x00000000, 0x00000000, 0x00000000, 0x00000000]

/-- Classifier `is_printable_char` of src/printable_string.rs. -/
def is_printable_char (b : Nat) : Bool :=
  (PRINTABLE_CHAR_MASK.getD (b / 32) 0) &&& (1 <<< (b % 32)) != 0

/-- Whole-slice validator `is_printable_string` of src/printable_string.rs. -/
def is_printable_string (bs : List Nat) : Bool :=
  bs.all is_printable_char

/-- Membership test for a UTF-8 continuation byte (`0x80 ..= 0xBF`),
used by the model of `std::str::from_utf8`. -/
def utf8Cont (b : Nat) : Bool :=
  0x80 ≤ b && b ≤ 0xBF

/-- Validity of a byte sequence as UTF-8, modelling the check performed by
`std::str::from_utf8` (a standard-library collaborator of the source, not
repository code): ASCII, and the 2-, 3-, 4-byte forms with overlongs and
surrogates rejected. -/
def utf8Valid : List Nat → Bool
  | [] => true
  | b :: rest =>
    if b ≤ 0x7F then utf8Valid rest
    else if 0xC2 ≤ b && b ≤ 0xDF then
      match rest with
      | c1 :: rest2 => utf8Cont c1 && utf8Valid rest2
      | [] => false
    else if b == 0xE0 then
      match rest with
      | c1 :: c2 :: rest2 => (0xA0 ≤ c1 && c1 ≤ 0xBF) && utf8Cont c2 && utf8Valid rest2
      | _ => false
    else if (0xE1 ≤ b && b ≤ 0xEC) || b == 0xEE || b == 0xEF then
      match rest with
      | c1 :: c2 :: rest2 => utf8Cont c1 && utf8Cont c2 && utf8Valid rest2
      | _ => false
    else if b == 0xED then
      match rest with
      | c1 :: c2 :: rest2 => (0x80 ≤ c1 && c1 ≤ 0x9F) && utf8Cont c2 && utf8Valid rest2
      | _ => false
    else if b == 0xF0 then
      match rest with
      | c1 :: c2 :: c3 :: rest2 =>
        (0x90 ≤ c1 && c1 ≤ 0xBF) && utf8Cont c2 && utf8Cont c3 && utf8Valid rest2
      | _ => false
    else if 0xF1 ≤ b && b ≤ 0xF3 then
      match rest with
      | c1 :: c2 :: c3 :: rest2 =>
        utf8Cont c1 && utf8Cont c2 && utf8Cont c3 && utf8Valid rest2
      | _ => false
    else if b == 0xF4 then
      match rest with
      | c1 :: c2 :: c3 :: rest2 =>
        (0x80 ≤ c1 && c1 ≤ 0x8F) && utf8Cont c2 && utf8Cont c3 && utf8Valid rest2
      | _ => false
    else false

/-- Converter `to_printable_string` of src/printable_string.rs: reject a
byte outside the printable repertoire, then require UTF-8 validity (the
`str::from_utf8` step); the validated bytes stand in for the borrowed
`&str`. -/
def to_printable_string (bs : List Nat) : Except Error (List Nat) :=
  if !is_printable_string bs then .error .InvalidPrintableString
  else if utf8Valid bs then .ok bs
  else .error .InvalidUTF8

/-- Validation scan over the bytes after the first one, mirroring the
`for x in iter` loop of `ObjectIdentifier::new` (src/object_identifier.rs
lines 25–44); the second argument is the running `current_length` of
continuation bytes in the digit being scanned. -/
def oidScan : List Nat → Nat → Except Error Unit
  | [], current_length =>
    if current_length ≠ 0 then .error .MalformedObjectIdentifier else .ok ()
  | x :: rest, current_length =>
    if x &&& 0x80 = 0 then oidScan rest 0
    else if current_length = 0 ∧ x = 0x80 then .error .MalformedObjectIdentifier
    else if current_length + 1 > 4 then .error .ObjectIdentifierTooLarge
    else oidScan rest (current_length + 1)

/-- Validating constructor `ObjectIdentifier::new` (src/object_identifier.rs):
the content must be non-empty, its first byte below `3 * 40`, and the scan
over the remaining bytes must succeed; the validated content is returned. -/
def ObjectIdentifier.new (content : List Nat) : Except Error (List Nat) :=
  match content with
  | [] => .error .MalformedObjectIdentifier
  | first :: rest =>
    if 3 * 40 ≤ first then .error .MalformedObjectIdentifier
    else
      match oidScan rest 0 with
      | .ok _ => .ok content
      | .error e => .error e

/-- Iterator state of `ObjectIdentifierIterator` (src/object_identifier.rs). -/
inductive OidIterState where
  | First
  | Second
  | Later
  deriving DecidableEq

/-- Iterator `ObjectIdentifierIterator` over a borrowed content slice. -/
structure OidIter where
  content : List Nat
  state : OidIterState
  deriving DecidableEq

/-- Inner loop of the `Later` arm of `ObjectIdentifierIterator::next`:
fold bytes into the `u32` accumulator (7 payload bits each, the shift
wrapping mod `2 ^ 32` as in Rust) until a byte with the continuation bit
clear ends the digit; `none` corresponds to falling off the end of the
content, which in the source is the `unreachable!()` panic. -/
def oidDigitScan (accumulator : Nat) : List Nat → Option (Nat × List Nat)
  | [] => none
  | byte :: rest =>
    let accumulator2 := ((accumulator <<< 7) % 4294967296) ||| (byte &&& 0x7f)
    if byte &&& 0x80 = 0 then some (accumulator2, rest)
    else oidDigitScan accumulator2 rest

/-- Outcome of one `ObjectIdentifierIterator::next` call: a yielded digit
with the successor iterator, the end of the sequence (`None` in Rust), or
the `unreachable!()` panic branch. -/
inductive IterStep where
  | panic
  | done
  | yield (digit : Nat) (it : OidIter)
  deriving DecidableEq

/-- One call of `ObjectIdentifierIterator::next` (src/object_identifier.rs
lines 69–106). -/
def oidIterNext (it : OidIter) : IterStep :=
  match it.content with
  | [] => .done
  | first :: rest =>
    match it.state with
    | .First => .yield (first / 40) ⟨first :: rest, .Second⟩
    | .Second => .yield (first % 40) ⟨rest, .Later⟩
    | .Later =>
      match oidDigitScan 0 (first :: rest) with
      | some (digit, remaining) => .yield digit ⟨remaining, .Later⟩
      | none => .panic

/-- Result of the `n`-th iterator call (counting from 0) when the calls
are chained, with `done` and `panic` absorbing. -/
def runIter : Nat → OidIter → IterStep
  | 0, it => oidIterNext it
  | n + 1, it =>
    match oidIterNext it with
    | .yield _ it2 => runIter n it2
    | s => s

/-- First `n` digits yielded by chained iterator calls (the Rust test's
`oid.iter().collect()` with fuel `n`). -/
def collectDigits : Nat → OidIter → List Nat
  | 0, _ => []
  | n + 1, it =>
    match oidIterNext it with
    | .yield digit it2 => digit :: collectDigits n it2
    | _ => []

/-- Iterator construction `ObjectIdentifier::iter` (src/object_identifier.rs
lines 49–54). -/
def ObjectIdentifier.iter (content : List Nat) : OidIter :=
  ⟨content, .First⟩

/-- Construct kind of an open frame (`StructureKind` in src/lib.rs). -/
inductive StructureKind where
  | Sequence
  | Set
  deriving DecidableEq

/-- Pending construct frame (`Structure` in src/lib.rs): its kind and the
absolute offset at which it must end. -/
structure Structure where
  kind : StructureKind
  end_position : Nat
  deriving DecidableEq

/-- Decoder state (`Parser` in src/lib.rs).  The Rust `Vec` pushes and pops
at its back and reads the innermost frame with `last()`; here the list
head is the innermost frame. -/
structure Parser where
  input : List Nat
  position : Nat
  structures : List Structure
  deriving DecidableEq

/-- Constructor `Parser::new`. -/
def Parser.new (input : List Nat) : Parser :=
  ⟨input, 0, []⟩

/-- Loop body count of `usize_bytes()` (src/lib.rs lines 17–26) run on a
64-bit `usize::MAX`, with enough structural fuel for every iteration. -/
def surviving_byte_count : Nat → Nat → Nat
  | 0, _ => 0
  | fuel + 1, surviving =>
    if surviving = 0 then 0 else surviving_byte_count fuel (surviving >>> 8) + 1

/-- Number of bytes of `usize` (8 on the 64-bit platform modelled here),
as computed by `usize_bytes()`. -/
def usize_bytes : Nat :=
  surviving_byte_count 64 (2 ^ 64 - 1)

/-- One-byte read `Parser::consume_one` (src/lib.rs lines 107–117): the
byte at the cursor, advancing it, or `EOF` leaving the state unchanged. -/
def Parser.consume_one (p : Parser) : Except Error Nat × Parser :=
  match p.input.get? p.position with
  | some x => (.ok x, { p with position := p.position + 1 })
  | none => (.error .EOF, p)

/-- Slice read `Parser::consume` (src/lib.rs lines 119–131).  The bounds
check is subtraction-first, exactly as in the source, so that a huge
`count` cannot overflow `position + count`. -/
def Parser.consume (p : Parser) (count : Nat) : Except Error (List Nat) × Parser :=
  if count > p.input.length ∨ p.input.length - count < p.position then
    (.error .EOF, p)
  else
    (.ok ((p.input.drop p.position).take count),
     { p with position := p.position + count })

/-- Length-field decoder `Parser::read_length` (src/lib.rs lines 70–105).
A short-form byte is the length; a long form reads `initial & 0x7f`
continuation bytes, requires that count to fit `usize_bytes()`, rejects a
zero leading byte, folds big-endian (at most 8 bytes each below 256, so
the `usize` accumulator cannot wrap), and rejects an accumulated value
below 128 as non-canonical. -/
def Parser.read_length (p : Parser) : Except Error Nat × Parser :=
  match p.consume_one with
  | (.error e, p1) => (.error e, p1)
  | (.ok initial, p1) =>
    if initial < 0x80 then (.ok initial, p1)
    else
      if initial &&& 0x7f > usize_bytes then (.error .OverlongLength, p1)
      else
        match p1.consume (initial &&& 0x7f) with
        | (.error e, p2) => (.error e, p2)
        | (.ok length_bytes, p2) =>
          match length_bytes with
          | [] => (.error .InvalidLengthEncoding, p2)
          | length_msb :: rest =>
            if length_msb = 0 then (.error .InvalidLengthEncoding, p2)
            else
              if rest.foldl (fun a b => (a <<< 8) ||| b) length_msb < 128 then
                (.error .InvalidLengthEncoding, p2)
              else (.ok (rest.foldl (fun a b => (a <<< 8) ||| b) length_msb), p2)

/-- Decoded value (`Asn1Value` in src/lib.rs); borrowed payloads become the
payload byte lists. -/
inductive Asn1Value where
  | Null
  | Boolean (b : Bool)
  | Integer (bytes : List Nat)
  | ObjectIdentifier (content : List Nat)
  | OctetString (bytes : List Nat)
  | PrintableString (bytes : List Nat)
  | Utf8String (bytes : List Nat)
  | SequenceStart
  | SequenceEnd
  | SetStart
  | SetEnd
  deriving DecidableEq

/-- Reader `Parser::read_boolean`: length must be exactly 1, byte `0x00`
is `false`, `0xff` is `true`, anything else is malformed. -/
def Parser.read_boolean (p : Parser) (length : Nat) : Except Error Asn1Value × Parser :=
  if length ≠ 1 then (.error .IncorrectLength, p)
  else
    match p.consume_one with
    | (.error e, p1) => (.error e, p1)
    | (.ok b, p1) =>
      if b = 0x00 then (.ok (.Boolean false), p1)
      else if b = 0xff then (.ok (.Boolean true), p1)
      else (.error .Malformed, p1)

/-- Reader `Parser::read_integer`: wrap the raw bytes, no validation. -/
def Parser.read_integer (p : Parser) (length : Nat) : Except Error Asn1Value × Parser :=
  match p.consume length with
  | (.error e, p1) => (.error e, p1)
  | (.ok bs, p1) => (.ok (.Integer bs), p1)

/-- Reader `Parser::read_bit_string`: unimplemented in the source. -/
def Parser.read_bit_string (p : Parser) (_length : Nat) : Except Error Asn1Value × Parser :=
  (.error .NotImplemented, p)

/-- Reader `Parser::read_octet_string`: the raw byte slice. -/
def Parser.read_octet_string (p : Parser) (length : Nat) : Except Error Asn1Value × Parser :=
  match p.consume length with
  | (.error e, p1) => (.error e, p1)
  | (.ok bs, p1) => (.ok (.OctetString bs), p1)

/-- Reader `Parser::read_null`: length must be exactly 0. -/
def Parser.read_null (p : Parser) (length : Nat) : Except Error Asn1Value × Parser :=
  if length ≠ 0 then (.error .IncorrectLength, p)
  else (.ok .Null, p)

/-- Reader `Parser::read_object_identifier`: consume the content bytes and
delegate to the validating constructor. -/
def Parser.read_object_identifier (p : Parser) (length : Nat) : Except Error Asn1Value × Parser :=
  match p.consume length with
  | (.error e, p1) => (.error e, p1)
  | (.ok oid_bytes, p1) =>
    match ObjectIdentifier.new oid_bytes with
    | .ok content => (.ok (.ObjectIdentifier content), p1)
    | .error e => (.error e, p1)

/-- Reader `Parser::read_utf8_string`: consume and require UTF-8 validity. -/
def Parser.read_utf8_string (p : Parser) (length : Nat) : Except Error Asn1Value × Parser :=
  match p.consume length with
  | (.error e, p1) => (.error e, p1)
  | (.ok utf8_bytes, p1) =>
    if utf8Valid utf8_bytes then (.ok (.Utf8String utf8_bytes), p1)
    else (.error .InvalidUTF8, p1)

/-- Reader `Parser::read_printable_string`: consume and validate via
`to_printable_string`. -/
def Parser.read_printable_string (p : Parser) (length : Nat) : Except Error Asn1Value × Parser :=
  match p.consume length with
  | (.error e, p1) => (.error e, p1)
  | (.ok bs, p1) =>
    match to_printable_string bs with
    | .ok s => (.ok (.PrintableString s), p1)
    | .error e => (.error e, p1)

/-- Reader `Parser::read_ia5_string`: unimplemented in the source. -/
def Parser.read_ia5_string (p : Parser) (_length : Nat) : Except Error Asn1Value × Parser :=
  (.error .NotImplemented, p)

/-- Reader `Parser::read_bmp_string`: unimplemented in the source. -/
def Parser.read_bmp_string (p : Parser) (_length : Nat) : Except Error Asn1Value × Parser :=
  (.error .NotImplemented, p)

/-- Innermost pending end offset, or the buffer length at top level: the
`self.structures.last().map(|x| x.end_position).unwrap_or(self.input.len())`
of `Parser::read_structure`. -/
def stackBound (len : Nat) : List Structure → Nat
  | [] => len
  | s :: _ => s.end_position

/-- Reader `Parser::read_structure` (src/lib.rs lines 190–205): the
declared length must fit in the innermost frame's remaining space (the
whole buffer at top level) — checked subtraction-first against overflow —
then a frame ending at `position + length` is pushed and the start marker
returned, without consuming the content. -/
def Parser.read_structure (p : Parser) (length : Nat) (kind : StructureKind) :
    Except Error Asn1Value × Parser :=
  if length > stackBound p.input.length p.structures ∨
      stackBound p.input.length p.structures - length < p.position then
    (.error .EOF, p)
  else
    (.ok (match kind with
          | .Sequence => .SequenceStart
          | .Set => .SetStart),
     { p with structures := ⟨kind, p.position + length⟩ :: p.structures })

/-- Reader `Parser::read_sequence`. -/
def Parser.read_sequence (p : Parser) (length : Nat) : Except Error Asn1Value × Parser :=
  p.read_structure length .Sequence

/-- Reader `Parser::read_set`. -/
def Parser.read_set (p : Parser) (length : Nat) : Except Error Asn1Value × Parser :=
  p.read_structure length .Set

/-- Per-type dispatch over the tag byte: the `match value_type` of
`Parser::next` (src/lib.rs lines 233–247), rendered as an `if`-chain over
the same literals; the wildcard arm fails with `UnrecognizedType`. -/
def Parser.dispatch_value (p : Parser) (value_type length : Nat) :
    Except Error Asn1Value × Parser :=
  if value_type = 0x01 then p.read_boolean length
  else if value_type = 0x02 then p.read_integer length
  else if value_type = 0x03 then p.read_bit_string length
  else if value_type = 0x04 then p.read_octet_string length
  else if value_type = 0x05 then p.read_null length
  else if value_type = 0x06 then p.read_object_identifier length
  else if value_type = 0x0C then p.read_utf8_string length
  else if value_type = 0x13 then p.read_printable_string length
  else if value_type = 0x16 then p.read_ia5_string length
  else if value_type = 0x1E then p.read_bmp_string length
  else if value_type = 0x30 then p.read_sequence length
  else if value_type = 0x31 then p.read_set length
  else (.error .UnrecognizedType, p)

/-- Tag-and-length reading followed by per-type dispatch: the part of
`Parser::next` (src/lib.rs lines 230–247) after the nesting-stack check.
The wildcard arm fails after both the tag and its length were consumed. -/
def Parser.next_value (p : Parser) : Except Error Asn1Value × Parser :=
  match p.consume_one with
  | (.error e, p1) => (.error e, p1)
  | (.ok value_type, p1) =>
    match p1.read_length with
    | (.error e, p2) => (.error e, p2)
    | (.ok length, p2) => p2.dispatch_value value_type length

/-- Value reader `Parser::next` (src/lib.rs lines 215–248): when the
innermost frame's end offset is at or before the cursor, either report a
structure overrun (cursor strictly past the end) or pop the frame and
yield its end marker; otherwise read the next tag-length-value unit. -/
def Parser.next (p : Parser) : Except Error Asn1Value × Parser :=
  match p.structures with
  | innermost :: rest =>
    if innermost.end_position ≤ p.position then
      if innermost.end_position ≠ p.position then (.error .StructureOverrun, p)
      else
        (.ok (match innermost.kind with
              | .Sequence => .SequenceEnd
              | .Set => .SetEnd),
         { p with structures := rest })
    else p.next_value
  | [] => p.next_value

/-- Results of `n` successive `next()` calls on a parser. -/
def nextN : Parser → Nat → List (Except Error Asn1Value)
  | _, 0 => []
  | p, n + 1 => (p.next).1 :: nextN (p.next).2 n

/-!  Spec-side definitions: the conditions and comparison values that the
claims speak about, written from the specification's words so the theorems
can relate them to the source functions above. -/

/-- Printable repertoire as the specification enumerates it: uppercase and
lowercase letters, digits, space, and the punctuation set
`' ( ) + , - . / : = ?`. -/
def printableSpecSet (b : Nat) : Bool :=
  (65 ≤ b && b ≤ 90) || (97 ≤ b && b ≤ 122) || (48 ≤ b && b ≤ 57) ||
  b == 32 || b == 39 || b == 40 || b == 41 || b == 43 || b == 44 ||
  b == 45 || b == 46 || b == 47 || b == 58 || b == 61 || b == 63

/-- Big-endian accumulation of length bytes, as the specification phrases
it ("accumulate the bytes big-endian into an unsigned integer"). -/
def beAcc (l : List Nat) : Nat :=
  l.foldl (fun a b => (a <<< 8) ||| b) 0

/-- Nesting-stack well-formedness from the specification's invariant:
each frame's end offset is at most the end offset of the frame below it
(the list head being innermost), the bottom frame's at most the buffer
length. -/
def framesOk (len : Nat) : List Structure → Bool
  | [] => true
  | s :: rest => decide (s.end_position ≤ stackBound len rest) && framesOk len rest

/-- Single-step contract of every parser operation, as claim C5 states
it: the cursor never decreases, the input buffer is untouched, the cursor
stays within the buffer, and nesting-stack well-formedness is preserved. -/
def StepOk (p q : Parser) : Prop :=
  p.position ≤ q.position ∧ q.input = p.input ∧
  (p.position ≤ p.input.length → q.position ≤ q.input.length) ∧
  (p.position ≤ p.input.length → framesOk p.input.length p.structures = true →
    framesOk q.input.length q.structures = true)

/-- Whether a byte list is empty or ends with a byte whose continuation
bit is clear — the "no trailing continuation byte" condition of the
object-identifier claims. -/
def lastClear : List Nat → Bool
  | [] => true
  | [b] => b &&& 0x80 == 0
  | _ :: b :: rest => lastClear (b :: rest)

/-- Whether, somewhere in the list, a byte equal to `0x80` directly
follows a byte with its continuation bit clear (the previous byte is
given as the first argument) — i.e. some later digit starts with `0x80`. -/
def hasBadAfter (prev : Nat) : List Nat → Bool
  | [] => false
  | x :: rest => ((prev &&& 0x80 == 0) && (x == 0x80)) || hasBadAfter x rest

/-- The claim's "the first byte of some digit after the initial byte is
exactly 0x80": the list's first byte is `0x80`, or `0x80` occurs right
after a byte with the continuation bit clear. -/
def hasBadDigitStart : List Nat → Bool
  | [] => false
  | x :: rest => (x == 0x80) || hasBadAfter x rest

/-- Length of the leading run of bytes with the continuation bit set. -/
def leadingCont : List Nat → Nat
  | [] => 0
  | x :: rest => if x &&& 0x80 = 0 then 0 else leadingCont rest + 1

/-- The claim's "a digit spanning more than 4 continuation bytes": some
position starts a run of at least five consecutive continuation bytes. -/
def hasLongRun : List Nat → Bool
  | [] => false
  | x :: rest => decide (5 ≤ leadingCont (x :: rest)) || hasLongRun rest

/-- Failure of the validating constructor with one of its two error kinds. -/
def newFails (l : List Nat) : Prop :=
  ObjectIdentifier.new l = .error .MalformedObjectIdentifier ∨
  ObjectIdentifier.new l = .error .ObjectIdentifierTooLarge

deriving instance DecidableEq for Except

/-!  Theorems.  Claim theorems are marked with their claim id; the
unnamed lemmas before them are shared infrastructure. -/

/-- C4: on the exact buffer `30 06 01 01 00 01 01 FF`, four successive
`next()` calls on a fresh parser yield the ordered-composite start marker,
boolean false, boolean true and the composite end marker, and the fifth
call fails with the end-of-input kind. -/
theorem sequence_of_booleans_trace :
    nextN (Parser.new [0x30, 0x06, 0x01, 0x01, 0x00, 0x01, 0x01, 0xff]) 5 =
      [.ok .SequenceStart, .ok (.Boolean false), .ok (.Boolean true),
       .ok .SequenceEnd, .error .EOF] := by
  decide

/-- C1: the structure-overrun behaviour of `next()`, evaluated at a
failing input.  On `30 02 01 01 00` the inner boolean's declared length
carries the cursor one byte past its container's end offset, and the
third `next()` call fails with the structure-overrun kind.  The claim is
right about the intended behaviour, but the `Error` enum of src/error.rs
omits the `StructureOverrun` variant that src/lib.rs line 219 constructs,
so the crate itself does not compile; the variant is supplied in this
embedding's `Error` as the evident intent. -/
theorem next_structure_overrun_trace :
    nextN (Parser.new [0x30, 0x02, 0x01, 0x01, 0x00]) 3 =
      [.ok .SequenceStart, .ok (.Boolean false), .error .StructureOverrun] := by
  decide

/-- C6: the two specification object identifiers validate and their digit
iterators yield exactly the expected digit sequences; moreover the first
iterator call yields `first / 40` and the second `first % 40` for every
non-empty content. -/
theorem oid_digits_examples :
    ObjectIdentifier.new [0x2B, 0x06, 0x01, 0x04, 0x01, 0x82, 0x37, 0x15, 0x14] =
        .ok [0x2B, 0x06, 0x01, 0x04, 0x01, 0x82, 0x37, 0x15, 0x14] ∧
    collectDigits 16 (ObjectIdentifier.iter
        [0x2B, 0x06, 0x01, 0x04, 0x01, 0x82, 0x37, 0x15, 0x14]) =
        [1, 3, 6, 1, 4, 1, 311, 21, 20] ∧
    ObjectIdentifier.new [0x2A, 0x86, 0x48, 0x86, 0xF7, 0x0D, 0x01, 0x01, 0x01] =
        .ok [0x2A, 0x86, 0x48, 0x86, 0xF7, 0x0D, 0x01, 0x01, 0x01] ∧
    collectDigits 16 (ObjectIdentifier.iter
        [0x2A, 0x86, 0x48, 0x86, 0xF7, 0x0D, 0x01, 0x01, 0x01]) =
        [1, 2, 840, 113549, 1, 1, 1] ∧
    (∀ first rest, oidIterNext ⟨first :: rest, .First⟩ =
        .yield (first / 40) ⟨first :: rest, .Second⟩) ∧
    (∀ first rest, oidIterNext ⟨first :: rest, .Second⟩ =
        .yield (first % 40) ⟨rest, .Later⟩) :=
  ⟨by decide, by decide, by decide, by decide,
   fun _ _ => rfl, fun _ _ => rfl⟩

/-- C8 counterexample: the claim says the `as_u8` accessor returns no
value exactly when the slice is longer than 1 byte, and otherwise returns
the big-endian fold (which on the empty slice would be `some 0`); but on
the empty slice — which is not longer than 1 byte — the source's
`self.0.get(0)` is `None`. -/
theorem as_u8_empty_cex :
    Integer.as_u8 [] = none ∧ ¬ (([] : List Nat).length > 1) := by
  decide

/-- C8 as amended: `as_u32`/`as_u64` return `none` exactly when the slice
is longer than 4/8 bytes and otherwise the big-endian fold; `as_u8`
returns `none` exactly when the slice is longer than 1 byte or empty, and
on a singleton returns its byte. -/
theorem integer_width_limits (l : List Nat) :
    (Integer.as_u8 l = none ↔ (1 < l.length ∨ l = [])) ∧
    (Integer.as_u32 l = none ↔ 4 < l.length) ∧
    (Integer.as_u64 l = none ↔ 8 < l.length) ∧
    (l.length ≤ 4 → Integer.as_u32 l =
      some (l.foldl (fun accum b => ((accum <<< 8) % 4294967296) ||| b) 0)) ∧
    (l.length ≤ 8 → Integer.as_u64 l =
      some (l.foldl (fun accum b => ((accum <<< 8) % 18446744073709551616) ||| b) 0)) ∧
    (∀ b, l = [b] → Integer.as_u8 l = some b) := by
  refine ⟨?_, ?_, ?_, ?_, ?_, ?_⟩
  · rcases l with _ | ⟨a, _ | ⟨b, t⟩⟩ <;> simp [Integer.as_u8]
  · by_cases h : l.length > 4 <;> simp [Integer.as_u32, h]
  · by_cases h : l.length > 8 <;> simp [Integer.as_u64, h]
  · intro h; rw [Integer.as_u32, if_neg (by omega)]
  · intro h; rw [Integer.as_u64, if_neg (by omega)]
  · rintro b rfl; simp [Integer.as_u8]

/-- C8 witness: the five-byte slice gives no value from `as_u32` and the
one-byte slice `[0x03]` gives `3` from `as_u8`, via the amended theorem. -/
theorem integer_width_limits_witness :
    Integer.as_u32 [1, 2, 3, 4, 5] = none ∧ Integer.as_u8 [3] = some 3 :=
  ⟨((integer_width_limits [1, 2, 3, 4, 5]).2.1).mpr (by decide),
   (integer_width_limits [3]).2.2.2.2.2 3 rfl⟩

/-- C9: for every byte value the bitmap classifier agrees with the
specification's printable repertoire, and the whole-slice validator
accepts a slice exactly when every byte is accepted. -/
theorem printable_classifier_correct :
    (∀ b, b < 256 → is_printable_char b = printableSpecSet b) ∧
    (∀ l : List Nat, is_printable_string l = true ↔
      ∀ b ∈ l, is_printable_char b = true) := by
  constructor
  · decide
  · intro l
    simp [is_printable_string, List.all_eq_true]

/-- Evaluation of `consume` when the requested slice crosses the end of
the buffer: the guard fires and the state is unchanged. -/
theorem consume_eq_error (p : Parser) (count : Nat)
    (h : p.input.length < p.position + count) :
    p.consume count = (.error .EOF, p) := by
  unfold Parser.consume
  rw [if_pos]
  omega

/-- Evaluation of `consume` when the requested slice fits: exactly the
bytes `[position, position + count)` are returned and the cursor advances
by `count`. -/
theorem consume_eq_ok (p : Parser) (count : Nat)
    (h : p.position + count ≤ p.input.length) :
    p.consume count = (.ok ((p.input.drop p.position).take count),
      { p with position := p.position + count }) := by
  unfold Parser.consume
  rw [if_neg]
  omega

/-- Evaluation of `consume_one` at an in-bounds cursor. -/
theorem consume_one_eq_some (p : Parser) (b : Nat)
    (h : p.input.get? p.position = some b) :
    p.consume_one = (.ok b, { p with position := p.position + 1 }) := by
  unfold Parser.consume_one
  rw [h]

/-- Evaluation of `consume_one` at or past the end of the buffer. -/
theorem consume_one_eq_none (p : Parser) (h : p.input.length ≤ p.position) :
    p.consume_one = (.error .EOF, p) := by
  unfold Parser.consume_one
  rw [List.get?_eq_none.mpr h]

/-- C2: totality of the byte-consuming primitives that `next()` is built
from.  `consume` fails with the end-of-input kind exactly when the
declared count crosses the end of the buffer — for every count, including
counts near the maximum platform size, since the subtraction-first guard
never computes `position + count`  — and on success returns exactly the
in-bounds slice; `consume_one` fails exactly at or past the end; and a
long-form length field whose continuation bytes cross the end of the
buffer makes `read_length` fail with the end-of-input kind.  Totality
itself (no panic, no out-of-bounds index) holds by construction: `next`,
`consume` and `read_length` are total Lean functions and the only buffer
access is the `drop`/`take` slice proved here to be in bounds. -/
theorem consume_eof_total (p : Parser) (count : Nat) :
    ((p.consume count).1 = .error Error.EOF ↔
      p.input.length < p.position + count) ∧
    (p.position + count ≤ p.input.length →
      p.consume count = (.ok ((p.input.drop p.position).take count),
        { p with position := p.position + count })) ∧
    ((p.consume_one).1 = .error Error.EOF ↔ p.input.length ≤ p.position) ∧
    (∀ b, p.input.get? p.position = some b → 0x80 ≤ b →
      b &&& 0x7f ≤ usize_bytes →
      p.input.length < p.position + 1 + (b &&& 0x7f) →
      (p.read_length).1 = .error Error.EOF) := by
  refine ⟨?_, consume_eq_ok p count, ?_, ?_⟩
  · constructor
    · intro h
      by_contra hlt
      rw [consume_eq_ok p count (by omega)] at h
      exact Except.noConfusion h
    · intro h
      rw [consume_eq_error p count h]
  · constructor
    · intro h
      by_contra hlt
      obtain ⟨b, hb⟩ : ∃ b, p.input.get? p.position = some b := by
        cases hg : p.input.get? p.position with
        | some b => exact ⟨b, rfl⟩
        | none => exact absurd (List.get?_eq_none.mp hg) hlt
      rw [consume_one_eq_some p b hb] at h
      exact Except.noConfusion h
    · intro h
      rw [consume_one_eq_none p h]
  · intro b hb hb1 hk hlen
    unfold Parser.read_length
    rw [consume_one_eq_some p b hb]
    simp only
    rw [if_neg (by omega), if_neg (by omega),
      consume_eq_error _ _ (by simpa using by omega)]

/-- C2 witness: a three-byte buffer rejects a near-`usize::MAX` count with
end-of-input, and a buffer holding only the long-form initial byte `0x81`
fails `read_length` with end-of-input. -/
theorem consume_eof_total_witness :
    ((Parser.new [0, 1, 2]).consume 18446744073709551615).1 =
      .error Error.EOF ∧
    ((Parser.new [0x81]).read_length).1 = .error Error.EOF :=
  ⟨(consume_eof_total (Parser.new [0, 1, 2]) 18446744073709551615).1.mpr
      (by decide),
   (consume_eof_total (Parser.new [0x81]) 0).2.2.2 0x81 rfl (by decide)
      (by decide) (by decide)⟩

/-- Folding the length bytes from the accumulator seeded with the leading
byte, as the source loop does, equals the big-endian accumulation of the
whole byte list seeded with zero. -/
theorem beAcc_cons (m : Nat) (rest : List Nat) :
    beAcc (m :: rest) = rest.foldl (fun a b => (a <<< 8) ||| b) m := by
  simp [beAcc, Nat.zero_shiftLeft, Nat.zero_or]

/-- C3: for a long-form length field whose continuation-byte count fits
the platform word size and whose continuation bytes are all present,
`read_length` fails with the invalid-length-encoding kind exactly when the
first continuation byte is zero or the big-endian accumulated value is
below 128 (in particular for a bare `0x80` initial byte, whose zero
continuation bytes accumulate to 0), and otherwise succeeds with the
accumulated value, leaving the cursor after the length field. -/
theorem read_length_longform_canonical (p : Parser) (b : Nat)
    (hb : p.input.get? p.position = some b) (hb1 : 0x80 ≤ b)
    (hk : b &&& 0x7f ≤ usize_bytes)
    (hlen : p.position + 1 + (b &&& 0x7f) ≤ p.input.length) :
    ((p.read_length).1 = .error Error.InvalidLengthEncoding ↔
      (((p.input.drop (p.position + 1)).take (b &&& 0x7f)).head? = some 0 ∨
        beAcc ((p.input.drop (p.position + 1)).take (b &&& 0x7f)) < 128)) ∧
    (¬ (((p.input.drop (p.position + 1)).take (b &&& 0x7f)).head? = some 0 ∨
        beAcc ((p.input.drop (p.position + 1)).take (b &&& 0x7f)) < 128) →
      p.read_length =
        (.ok (beAcc ((p.input.drop (p.position + 1)).take (b &&& 0x7f))),
         { p with position := p.position + 1 + (b &&& 0x7f) })) := by
  have hstep : p.read_length =
      (match (p.input.drop (p.position + 1)).take (b &&& 0x7f) with
       | [] => (.error .InvalidLengthEncoding,
           { p with position := p.position + 1 + (b &&& 0x7f) })
       | length_msb :: rest =>
         if length_msb = 0 then (.error .InvalidLengthEncoding,
             { p with position := p.position + 1 + (b &&& 0x7f) })
         else
           let length_accumulator :=
             rest.foldl (fun a b => (a <<< 8) ||| b) length_msb
           if length_accumulator < 128 then (.error .InvalidLengthEncoding,
               { p with position := p.position + 1 + (b &&& 0x7f) })
           else (.ok length_accumulator,
               { p with position := p.position + 1 + (b &&& 0x7f) })) := by
    unfold Parser.read_length
    rw [consume_one_eq_some p b hb]
    simp only
    rw [if_neg (show ¬ (b < 0x80) by omega)]
    rw [if_neg (show ¬ (b &&& 0x7f > usize_bytes) by omega),
      consume_eq_ok _ _ hlen]
  rw [hstep]
  cases hbytes : (p.input.drop (p.position + 1)).take (b &&& 0x7f) with
  | nil =>
    constructor
    · simp [beAcc]
    · simp [beAcc]
  | cons m rest =>
    by_cases hm : m = 0
    · subst hm
      constructor
      · simp
      · simp
    · rw [beAcc_cons]
      by_cases hlt : rest.foldl (fun a b => (a <<< 8) ||| b) m < 128
      · constructor
        · simp [hm, hlt]
        · simp [hm, hlt]
      · constructor
        · simp [hm, hlt]
        · simp [hm, hlt]

/-- C3 witness: the two-byte buffer `81 05` declares one continuation
byte accumulating to 5 < 128, so `read_length` fails with the
invalid-length-encoding kind; the three-byte buffer `81 80` succeeds with
length 128. -/
theorem read_length_longform_witness :
    ((Parser.new [0x81, 0x05]).read_length).1 =
      .error Error.InvalidLengthEncoding ∧
    (Parser.new [0x81, 0x80]).read_length =
      (.ok 128, { Parser.new [0x81, 0x80] with position := 2 }) :=
  ⟨(read_length_longform_canonical (Parser.new [0x81, 0x05]) 0x81 rfl
      (by decide) (by decide) (by decide)).1.mpr (by decide),
   (read_length_longform_canonical (Parser.new [0x81, 0x80]) 0x81 rfl
      (by decide) (by decide) (by decide)).2 (by decide)⟩

/-- Bytes below 128 have a clear continuation bit. -/
theorem and128_eq_zero : ∀ x < 128, x &&& 0x80 = 0 := by
  decide

/-- Every byte list accepted by the validation scan is empty or ends with
a byte whose continuation bit is clear. -/
theorem oidScan_ok_lastClear : ∀ (l : List Nat) (cl : Nat),
    oidScan l cl = .ok () → lastClear l = true := by
  intro l
  induction l with
  | nil => intro cl _; rfl
  | cons x rest ih =>
    intro cl h
    unfold oidScan at h
    by_cases hx : x &&& 0x80 = 0
    · rw [if_pos hx] at h
      cases rest with
      | nil => simp [lastClear, hx]
      | cons b t => simpa [lastClear] using ih 0 h
    · rw [if_neg hx] at h
      by_cases h80 : cl = 0 ∧ x = 0x80
      · rw [if_pos h80] at h; exact Except.noConfusion h
      · rw [if_neg h80] at h
        by_cases h4 : cl + 1 > 4
        · rw [if_pos h4] at h; exact Except.noConfusion h
        · rw [if_neg h4] at h
          cases rest with
          | nil =>
            unfold oidScan at h
            rw [if_pos (by omega)] at h
            exact Except.noConfusion h
          | cons b t => simpa [lastClear] using ih (cl + 1) h

/-- The validation scan only ever fails with the malformed or too-large
kind. -/
theorem oidScan_error_kinds : ∀ (l : List Nat) (cl : Nat) (e : Error),
    oidScan l cl = .error e →
    e = .MalformedObjectIdentifier ∨ e = .ObjectIdentifierTooLarge := by
  intro l
  induction l with
  | nil =>
    intro cl e h
    unfold oidScan at h
    by_cases hcl : cl ≠ 0
    · rw [if_pos hcl] at h
      injection h with h'
      exact Or.inl h'.symm
    · rw [if_neg hcl] at h
      exact Except.noConfusion h
  | cons x rest ih =>
    intro cl e h
    unfold oidScan at h
    by_cases hx : x &&& 0x80 = 0
    · rw [if_pos hx] at h
      exact ih 0 e h
    · rw [if_neg hx] at h
      by_cases h80 : cl = 0 ∧ x = 0x80
      · rw [if_pos h80] at h
        injection h with h'
        exact Or.inl h'.symm
      · rw [if_neg h80] at h
        by_cases h4 : cl + 1 > 4
        · rw [if_pos h4] at h
          injection h with h'
          exact Or.inr h'.symm
        · rw [if_neg h4] at h
          exact ih (cl + 1) e h

/-- A byte `0x80` right after a byte with a clear continuation bit — a
non-canonical digit start — makes the validation scan fail, provided the
running continuation count agrees with whether the previous byte ended a
digit. -/
theorem oidScan_hasBadAfter : ∀ (l : List Nat) (prev cl : Nat),
    (prev &&& 0x80 = 0 ↔ cl = 0) → hasBadAfter prev l = true →
    oidScan l cl ≠ .ok () := by
  intro l
  induction l with
  | nil => intro prev cl _ hbad; simp [hasBadAfter] at hbad
  | cons x rest ih =>
    intro prev cl hiff hbad
    unfold hasBadAfter at hbad
    rw [Bool.or_eq_true, Bool.and_eq_true] at hbad
    unfold oidScan
    by_cases hx : x &&& 0x80 = 0
    · rw [if_pos hx]
      rcases hbad with ⟨_, hx80⟩ | hrec
      · have hx0 : x = 0x80 := by simpa using hx80
        subst hx0
        exact absurd hx (by decide)
      · exact ih x 0 (iff_of_true hx rfl) hrec
    · rw [if_neg hx]
      rcases hbad with ⟨hprev, hx80⟩ | hrec
      · have hcl : cl = 0 := hiff.mp (by simpa using hprev)
        have hx0 : x = 0x80 := by simpa using hx80
        rw [if_pos ⟨hcl, hx0⟩]
        exact fun h => Except.noConfusion h
      · by_cases h80 : cl = 0 ∧ x = 0x80
        · rw [if_pos h80]; exact fun h => Except.noConfusion h
        · rw [if_neg h80]
          by_cases h4 : cl + 1 > 4
          · rw [if_pos h4]; exact fun h => Except.noConfusion h
          · rw [if_neg h4]
            exact ih x (cl + 1) (iff_of_false hx (by omega)) hrec

/-- A digit after the initial byte starting with `0x80` makes the
validation scan fail. -/
theorem oidScan_hasBadDigitStart : ∀ l : List Nat,
    hasBadDigitStart l = true → oidScan l 0 ≠ .ok () := by
  intro l hbad
  cases l with
  | nil => simp [hasBadDigitStart] at hbad
  | cons y r =>
    unfold hasBadDigitStart at hbad
    rw [Bool.or_eq_true] at hbad
    unfold oidScan
    by_cases hy : y &&& 0x80 = 0
    · rw [if_pos hy]
      rcases hbad with hy80 | hrec
      · have hy0 : y = 0x80 := by simpa using hy80
        subst hy0
        exact absurd hy (by decide)
      · exact oidScan_hasBadAfter r y 0 (iff_of_true hy rfl) hrec
    · rw [if_neg hy]
      rcases hbad with hy80 | hrec
      · have hy0 : y = 0x80 := by simpa using hy80
        rw [if_pos ⟨rfl, hy0⟩]
        exact fun h => Except.noConfusion h
      · by_cases h80 : (0 : Nat) = 0 ∧ y = 0x80
        · rw [if_pos h80]; exact fun h => Except.noConfusion h
        · rw [if_neg h80]
          rw [if_neg (show ¬ ((0 : Nat) + 1 > 4) by omega)]
          exact oidScan_hasBadAfter r y 1 (iff_of_false hy (by omega)) hrec

/-- A leading run of five continuation bytes witnesses a long run. -/
theorem hasLongRun_of_leadingCont : ∀ l : List Nat,
    5 ≤ leadingCont l → hasLongRun l = true := by
  intro l h
  cases l with
  | nil => simp [leadingCont] at h
  | cons x r =>
    unfold hasLongRun
    rw [Bool.or_eq_true]
    exact Or.inl (decide_eq_true h)

/-- The too-large failure of the validation scan only arises from a run
of at least five continuation bytes (counting the `cl` already carried
in). -/
theorem oidScan_toolarge_run : ∀ (l : List Nat) (cl : Nat),
    oidScan l cl = .error .ObjectIdentifierTooLarge →
    5 ≤ cl + leadingCont l ∨ hasLongRun l = true := by
  intro l
  induction l with
  | nil =>
    intro cl h
    unfold oidScan at h
    by_cases hcl : cl ≠ 0
    · rw [if_pos hcl] at h
      injection h with h'
      exact absurd h' (by decide)
    · rw [if_neg hcl] at h
      exact Except.noConfusion h
  | cons x rest ih =>
    intro cl h
    unfold oidScan at h
    by_cases hx : x &&& 0x80 = 0
    · rw [if_pos hx] at h
      rcases ih 0 h with h5 | hrun
      · refine Or.inr ?_
        unfold hasLongRun
        rw [Bool.or_eq_true]
        exact Or.inr (hasLongRun_of_leadingCont rest (by omega))
      · refine Or.inr ?_
        unfold hasLongRun
        rw [Bool.or_eq_true]
        exact Or.inr hrun
    · rw [if_neg hx] at h
      have hl : leadingCont (x :: rest) = leadingCont rest + 1 := by
        simp [leadingCont, hx]
      by_cases h80 : cl = 0 ∧ x = 0x80
      · rw [if_pos h80] at h
        injection h with h'
        exact absurd h' (by decide)
      · rw [if_neg h80] at h
        by_cases h4 : cl + 1 > 4
        · exact Or.inl (by omega)
        · rw [if_neg h4] at h
          rcases ih (cl + 1) h with h5 | hrun
          · exact Or.inl (by omega)
          · refine Or.inr ?_
            unfold hasLongRun
            rw [Bool.or_eq_true]
            exact Or.inr hrun

/-- A run of at least five continuation bytes (or enough carried-in count
to complete one) makes the validation scan fail. -/
theorem oidScan_run_fails : ∀ (l : List Nat) (cl : Nat), cl ≤ 4 →
    (5 ≤ cl + leadingCont l ∨ hasLongRun l = true) →
    oidScan l cl ≠ .ok () := by
  intro l
  induction l with
  | nil =>
    intro cl hcl h
    rcases h with h5 | hrun
    · simp [leadingCont] at h5; omega
    · simp [hasLongRun] at hrun
  | cons x rest ih =>
    intro cl hcl h
    unfold oidScan
    by_cases hx : x &&& 0x80 = 0
    · rw [if_pos hx]
      have hl : leadingCont (x :: rest) = 0 := by simp [leadingCont, hx]
      rcases h with h5 | hrun
      · exact absurd h5 (by omega)
      · unfold hasLongRun at hrun
        rw [Bool.or_eq_true] at hrun
        rcases hrun with h5' | hrun'
        · rw [decide_eq_true_eq] at h5'
          exact absurd h5' (by omega)
        · exact ih 0 (by omega) (Or.inr hrun')
    · rw [if_neg hx]
      have hl : leadingCont (x :: rest) = leadingCont rest + 1 := by
        simp [leadingCont, hx]
      by_cases h80 : cl = 0 ∧ x = 0x80
      · rw [if_pos h80]; exact fun hh => Except.noConfusion hh
      · rw [if_neg h80]
        by_cases h4 : cl + 1 > 4
        · rw [if_pos h4]; exact fun hh => Except.noConfusion hh
        · rw [if_neg h4]
          rcases h with h5 | hrun
          · exact ih (cl + 1) (by omega) (Or.inl (by omega))
          · unfold hasLongRun at hrun
            rw [Bool.or_eq_true] at hrun
            rcases hrun with h5' | hrun'
            · rw [decide_eq_true_eq] at h5'
              exact ih (cl + 1) (by omega) (Or.inl (by omega))
            · exact ih (cl + 1) (by omega) (Or.inr hrun')

/-- Reduction of the validating constructor at a non-empty content list. -/
theorem new_cons_eq (first : Nat) (rest : List Nat) :
    ObjectIdentifier.new (first :: rest) =
      if 3 * 40 ≤ first then .error .MalformedObjectIdentifier
      else
        match oidScan rest 0 with
        | .ok _ => .ok (first :: rest)
        | .error e => .error e := rfl

/-- Evaluation of the validating constructor for a first byte below 120:
the result is decided by the validation scan. -/
theorem new_eq_of_scan (first : Nat) (rest : List Nat)
    (hf : ¬ 3 * 40 ≤ first) :
    ObjectIdentifier.new (first :: rest) =
      match oidScan rest 0 with
      | .ok _ => .ok (first :: rest)
      | .error e => .error e := by
  rw [new_cons_eq, if_neg hf]

/-- A failing validation scan makes the constructor fail with one of its
two error kinds (and a first byte of 120 or more fails outright). -/
theorem newFails_of_scan_not_ok (first : Nat) (rest : List Nat)
    (h : oidScan rest 0 ≠ .ok ()) : newFails (first :: rest) := by
  by_cases hf : 3 * 40 ≤ first
  · left
    rw [new_cons_eq, if_pos hf]
  · unfold newFails
    rw [new_eq_of_scan first rest hf]
    cases hscan : oidScan rest 0 with
    | ok u => exact absurd (by cases u; exact hscan) h
    | error e =>
      rcases oidScan_error_kinds rest 0 e hscan with he | he
      · left; rw [he]
      · right; rw [he]

/-- C7 counterexample: on `00 80 81 81 81 81 01` the digit after the
initial byte spans five continuation bytes (`80 81 81 81 81` before the
terminator `01`), so by the claim it should fail with the too-large kind;
the constructor instead fails with the malformed-object-identifier kind,
because the non-canonical `0x80` digit start is detected first. -/
theorem oid_toolarge_kind_cex :
    ObjectIdentifier.new [0x00, 0x80, 0x81, 0x81, 0x81, 0x81, 0x01] =
      .error Error.MalformedObjectIdentifier ∧
    hasLongRun [0x80, 0x81, 0x81, 0x81, 0x81, 0x01] = true ∧
    ObjectIdentifier.new [0x00, 0x80, 0x81, 0x81, 0x81, 0x81, 0x01] ≠
      .error Error.ObjectIdentifierTooLarge := by
  decide

/-- C7 as amended: the constructor rejects — never deferring to
digit-decode time — the empty slice and any first byte ≥ 120 (both with
the malformed kind), any slice whose last byte has its continuation bit
set, and any digit after the initial byte starting with the byte `0x80`;
the latter two cases fail with the malformed or the too-large kind, the
too-large kind arising exactly from a digit spanning more than 4
continuation bytes (a run of five or more continuation bytes), whichever
violation the scan meets first. -/
theorem oid_construction_rejection :
    ObjectIdentifier.new [] = .error Error.MalformedObjectIdentifier ∧
    (∀ first rest, 120 ≤ first →
      ObjectIdentifier.new (first :: rest) =
        .error Error.MalformedObjectIdentifier) ∧
    (∀ l, lastClear l = false → newFails l) ∧
    (∀ first rest, hasBadDigitStart rest = true → newFails (first :: rest)) ∧
    (∀ first rest,
      ObjectIdentifier.new (first :: rest) =
        .error Error.ObjectIdentifierTooLarge →
      hasLongRun rest = true) ∧
    (∀ first rest, hasLongRun rest = true → newFails (first :: rest)) := by
  refine ⟨rfl, ?_, ?_, ?_, ?_, ?_⟩
  · intro first rest h
    rw [new_cons_eq, if_pos (by omega)]
  · intro l hl
    cases l with
    | nil => simp [lastClear] at hl
    | cons first rest =>
      by_cases hf : 3 * 40 ≤ first
      · left
        rw [new_cons_eq, if_pos hf]
      · apply newFails_of_scan_not_ok
        intro hscan
        have hcons : lastClear (first :: rest) = true := by
          cases rest with
          | nil =>
            have h0 : first &&& 0x80 = 0 := and128_eq_zero first (by omega)
            simp [lastClear, h0]
          | cons b t => simpa [lastClear] using oidScan_ok_lastClear _ 0 hscan
        rw [hcons] at hl
        exact Bool.noConfusion hl
  · intro first rest hbad
    exact newFails_of_scan_not_ok first rest (oidScan_hasBadDigitStart rest hbad)
  · intro first rest h
    by_cases hf : 3 * 40 ≤ first
    · rw [new_cons_eq, if_pos hf] at h
      injection h with h'
      exact absurd h' (by decide)
    · rw [new_eq_of_scan first rest hf] at h
      cases hscan : oidScan rest 0 with
      | ok u => rw [hscan] at h; exact Except.noConfusion h
      | error e =>
        rw [hscan] at h
        injection h with h'
        subst h'
        rcases oidScan_toolarge_run rest 0 hscan with h5 | hrun
        · exact hasLongRun_of_leadingCont rest (by omega)
        · exact hrun
  · intro first rest hrun
    exact newFails_of_scan_not_ok first rest
      (oidScan_run_fails rest 0 (by omega) (Or.inr hrun))

/-- C7 witness: a first byte of 200 fails with the malformed kind, and a
trailing continuation byte after a valid first byte fails with one of the
two construction-error kinds. -/
theorem oid_construction_rejection_witness :
    ObjectIdentifier.new [200] = .error Error.MalformedObjectIdentifier ∧
    newFails [0x00, 0x81] :=
  ⟨oid_construction_rejection.2.1 200 [] (by decide),
   oid_construction_rejection.2.2.1 [0x00, 0x81] (by decide)⟩

/-- Dropping the head preserves the terminated-last-byte property. -/
theorem lastClear_tail (x : Nat) (r : List Nat)
    (h : lastClear (x :: r) = true) : lastClear r = true := by
  cases r with
  | nil => rfl
  | cons b t => simpa [lastClear] using h

/-- On a non-empty list whose last byte has a clear continuation bit, the
digit scan always finds a terminator, and the remaining content keeps the
property. -/
theorem oidDigitScan_of_lastClear : ∀ (l : List Nat) (acc : Nat),
    lastClear l = true → l ≠ [] →
    ∃ d r, oidDigitScan acc l = some (d, r) ∧ lastClear r = true := by
  intro l
  induction l with
  | nil => intro acc _ hne; exact absurd rfl hne
  | cons b rest ih =>
    intro acc hlast _
    unfold oidDigitScan
    by_cases hb : b &&& 0x80 = 0
    · rw [if_pos hb]
      exact ⟨_, rest, rfl, lastClear_tail b rest hlast⟩
    · rw [if_neg hb]
      cases rest with
      | nil =>
        exfalso
        have : (b &&& 0x80 == 0) = true := hlast
        exact hb (by simpa using this)
      | cons c t =>
        exact ih _ (lastClear_tail b (c :: t) hlast) (by simp)

/-- One iterator call on content with a terminated last byte never hits
the `unreachable!()` branch and hands the property on to the successor
iterator. -/
theorem oidIterNext_safe (it : OidIter) (h : lastClear it.content = true) :
    oidIterNext it ≠ .panic ∧
    ∀ d it2, oidIterNext it = .yield d it2 → lastClear it2.content = true := by
  obtain ⟨content, state⟩ := it
  cases content with
  | nil =>
    refine ⟨by simp [oidIterNext], ?_⟩
    intro d it2 hy
    exact absurd hy (by simp [oidIterNext])
  | cons first rest =>
    cases state with
    | First =>
      refine ⟨by simp [oidIterNext], ?_⟩
      intro d it2 hy
      rw [oidIterNext] at hy
      injection hy with _ h2
      rw [← h2]
      exact h
    | Second =>
      refine ⟨by simp [oidIterNext], ?_⟩
      intro d it2 hy
      rw [oidIterNext] at hy
      injection hy with _ h2
      rw [← h2]
      exact lastClear_tail first rest h
    | Later =>
      obtain ⟨d, r, hscan, hr⟩ :=
        oidDigitScan_of_lastClear (first :: rest) 0 h (by simp)
      constructor
      · rw [oidIterNext]
        simp only at hscan ⊢
        rw [hscan]
        exact fun hh => IterStep.noConfusion hh
      · intro d2 it2 hy
        rw [oidIterNext] at hy
        simp only at hscan hy
        rw [hscan] at hy
        injection hy with _ h2
        rw [← h2]
        exact hr

/-- No chain of iterator calls starting from content with a terminated
last byte ever reaches the `unreachable!()` branch. -/
theorem runIter_no_panic : ∀ (n : Nat) (it : OidIter),
    lastClear it.content = true → runIter n it ≠ .panic := by
  intro n
  induction n with
  | zero =>
    intro it h
    exact (oidIterNext_safe it h).1
  | succ n ih =>
    intro it h
    unfold runIter
    cases hstep : oidIterNext it with
    | panic => exact absurd hstep (oidIterNext_safe it h).1
    | done => exact fun hh => IterStep.noConfusion hh
    | yield d it2 => exact ih it2 ((oidIterNext_safe it h).2 d it2 hstep)

/-- C10: for every byte slice accepted by the validating constructor, the
digit iterator is safe: every chained call returns a digit or the end of
the sequence (each call is a total function here, so it terminates), and
the branch modelling the source's `unreachable!()` is never executed. -/
theorem oid_iterator_safe (content : List Nat)
    (h : (ObjectIdentifier.new content).isOk = true) :
    ∀ n, runIter n (ObjectIdentifier.iter content) ≠ .panic := by
  have hlast : lastClear content = true := by
    cases content with
    | nil => exact absurd h (by decide)
    | cons first rest =>
      by_cases hf : 3 * 40 ≤ first
      · rw [new_cons_eq, if_pos hf] at h
        exact absurd h (by decide)
      · rw [new_eq_of_scan first rest hf] at h
        cases hscan : oidScan rest 0 with
        | error e =>
          rw [hscan] at h
          simp [Except.isOk, Except.toBool] at h
        | ok u =>
          cases u
          cases rest with
          | nil =>
            have h0 : first &&& 0x80 = 0 := and128_eq_zero first (by omega)
            simp [lastClear, h0]
          | cons b t =>
            simpa [lastClear] using oidScan_ok_lastClear _ 0 hscan
  intro n
  exact runIter_no_panic n (ObjectIdentifier.iter content) hlast

/-- C10 witness: three chained calls on the validated content `2B 06`
never panic. -/
theorem oid_iterator_safe_witness :
    runIter 3 (ObjectIdentifier.iter [0x2B, 0x06]) ≠ .panic :=
  oid_iterator_safe [0x2B, 0x06] (by decide) 3

/-- C9 witness: instance of the classifier agreement at byte 65 and of the
whole-slice equivalence at `[63, 32]`. -/
theorem printable_classifier_witness :
    is_printable_char 65 = printableSpecSet 65 ∧
    (is_printable_string [63, 32] = true ↔
      ∀ b ∈ [63, 32], is_printable_char b = true) :=
  ⟨printable_classifier_correct.1 65 (by decide),
   printable_classifier_correct.2 [63, 32]⟩

/-- The step contract is reflexive: an operation that leaves the state
unchanged satisfies it. -/
theorem stepOk_refl (p : Parser) : StepOk p p :=
  ⟨le_refl _, rfl, fun h => h, fun _ hf => hf⟩

/-- The step contract composes. -/
theorem stepOk_trans {p q r : Parser} (h1 : StepOk p q) (h2 : StepOk q r) :
    StepOk p r := by
  obtain ⟨a1, b1, c1, d1⟩ := h1
  obtain ⟨a2, b2, c2, d2⟩ := h2
  refine ⟨le_trans a1 a2, b2.trans b1, ?_, ?_⟩
  · intro h
    exact c2 (c1 h)
  · intro h hf
    exact d2 (c1 h) (d1 h hf)

/-- `consume_one` obeys the step contract. -/
theorem stepOk_consume_one (p : Parser) : StepOk p (p.consume_one).2 := by
  cases hg : p.input.get? p.position with
  | some x =>
    rw [consume_one_eq_some p x hg]
    have hlt : p.position < p.input.length := by
      by_contra hc
      rw [List.get?_eq_none.mpr (by omega)] at hg
      exact Option.noConfusion hg
    exact ⟨Nat.le_succ _, rfl, fun _ => hlt, fun _ hf => hf⟩
  | none =>
    rw [consume_one_eq_none p (List.get?_eq_none.mp hg)]
    exact stepOk_refl p

/-- `consume` obeys the step contract. -/
theorem stepOk_consume (p : Parser) (count : Nat) :
    StepOk p (p.consume count).2 := by
  by_cases h : p.input.length < p.position + count
  · rw [consume_eq_error p count h]
    exact stepOk_refl p
  · rw [consume_eq_ok p count (by omega)]
    exact ⟨Nat.le_add_right _ _, rfl,
      fun _ => show p.position + count ≤ p.input.length by omega,
      fun _ hf => hf⟩

/-- `read_length` obeys the step contract. -/
theorem stepOk_read_length (p : Parser) : StepOk p (p.read_length).2 := by
  unfold Parser.read_length
  have b1 := stepOk_consume_one p
  cases h1 : p.consume_one with
  | mk r1 p1 =>
    rw [h1] at b1
    cases r1 with
    | error e => exact b1
    | ok initial =>
      simp only []
      by_cases hsf : initial < 0x80
      · rw [if_pos hsf]; exact b1
      · rw [if_neg hsf]
        by_cases hob : initial &&& 0x7f > usize_bytes
        · rw [if_pos hob]; exact b1
        · rw [if_neg hob]
          have b2 := stepOk_consume p1 (initial &&& 0x7f)
          cases h2 : p1.consume (initial &&& 0x7f) with
          | mk r2 p2 =>
            rw [h2] at b2
            have b12 : StepOk p p2 := stepOk_trans b1 b2
            cases r2 with
            | error e => exact b12
            | ok length_bytes =>
              simp only []
              cases length_bytes with
              | nil => exact b12
              | cons msb rest =>
                simp only []
                by_cases hm : msb = 0
                · rw [if_pos hm]; exact b12
                · rw [if_neg hm]
                  by_cases hacc :
                      rest.foldl (fun a b => (a <<< 8) ||| b) msb < 128
                  · rw [if_pos hacc]; exact b12
                  · rw [if_neg hacc]; exact b12

/-- `read_boolean` obeys the step contract. -/
theorem stepOk_read_boolean (p : Parser) (length : Nat) :
    StepOk p (p.read_boolean length).2 := by
  unfold Parser.read_boolean
  by_cases hl : length ≠ 1
  · rw [if_pos hl]; exact stepOk_refl p
  · rw [if_neg hl]
    have b1 := stepOk_consume_one p
    cases h1 : p.consume_one with
    | mk r1 p1 =>
      rw [h1] at b1
      cases r1 with
      | error e => exact b1
      | ok b =>
        simp only []
        by_cases hb0 : b = 0x00
        · rw [if_pos hb0]; exact b1
        · rw [if_neg hb0]
          by_cases hbf : b = 0xff
          · rw [if_pos hbf]; exact b1
          · rw [if_neg hbf]; exact b1

/-- `read_integer` obeys the step contract. -/
theorem stepOk_read_integer (p : Parser) (length : Nat) :
    StepOk p (p.read_integer length).2 := by
  unfold Parser.read_integer
  have b1 := stepOk_consume p length
  cases h1 : p.consume length with
  | mk r1 p1 =>
    rw [h1] at b1
    cases r1 <;> exact b1

/-- `read_octet_string` obeys the step contract. -/
theorem stepOk_read_octet_string (p : Parser) (length : Nat) :
    StepOk p (p.read_octet_string length).2 := by
  unfold Parser.read_octet_string
  have b1 := stepOk_consume p length
  cases h1 : p.consume length with
  | mk r1 p1 =>
    rw [h1] at b1
    cases r1 <;> exact b1

/-- `read_null` obeys the step contract. -/
theorem stepOk_read_null (p : Parser) (length : Nat) :
    StepOk p (p.read_null length).2 := by
  unfold Parser.read_null
  by_cases hl : length ≠ 0
  · rw [if_pos hl]; exact stepOk_refl p
  · rw [if_neg hl]; exact stepOk_refl p

/-- `read_object_identifier` obeys the step contract. -/
theorem stepOk_read_object_identifier (p : Parser) (length : Nat) :
    StepOk p (p.read_object_identifier length).2 := by
  unfold Parser.read_object_identifier
  have b1 := stepOk_consume p length
  cases h1 : p.consume length with
  | mk r1 p1 =>
    rw [h1] at b1
    cases r1 with
    | error e => exact b1
    | ok oid_bytes =>
      simp only []
      cases hn : ObjectIdentifier.new oid_bytes <;> simp only [] <;> exact b1

/-- `read_utf8_string` obeys the step contract. -/
theorem stepOk_read_utf8_string (p : Parser) (length : Nat) :
    StepOk p (p.read_utf8_string length).2 := by
  unfold Parser.read_utf8_string
  have b1 := stepOk_consume p length
  cases h1 : p.consume length with
  | mk r1 p1 =>
    rw [h1] at b1
    cases r1 with
    | error e => exact b1
    | ok utf8_bytes =>
      simp only []
      split <;> exact b1

/-- `read_printable_string` obeys the step contract. -/
theorem stepOk_read_printable_string (p : Parser) (length : Nat) :
    StepOk p (p.read_printable_string length).2 := by
  unfold Parser.read_printable_string
  have b1 := stepOk_consume p length
  cases h1 : p.consume length with
  | mk r1 p1 =>
    rw [h1] at b1
    cases r1 with
    | error e => exact b1
    | ok bs =>
      simp only []
      cases hp : to_printable_string bs <;> simp only [] <;> exact b1

/-- `read_bit_string`, `read_ia5_string` and `read_bmp_string` obey the
step contract. -/
theorem stepOk_read_unimplemented (p : Parser) (length : Nat) :
    StepOk p (p.read_bit_string length).2 ∧
    StepOk p (p.read_ia5_string length).2 ∧
    StepOk p (p.read_bmp_string length).2 :=
  ⟨stepOk_refl p, stepOk_refl p, stepOk_refl p⟩

/-- `read_structure` obeys the step contract: the pushed frame's end
offset is bounded by the innermost pending bound, so stack
well-formedness is preserved. -/
theorem stepOk_read_structure (p : Parser) (length : Nat) (kind : StructureKind) :
    StepOk p (p.read_structure length kind).2 := by
  unfold Parser.read_structure
  by_cases hg : length > stackBound p.input.length p.structures ∨
      stackBound p.input.length p.structures - length < p.position
  · rw [if_pos hg]; exact stepOk_refl p
  · rw [if_neg hg]
    refine ⟨le_refl _, rfl, fun h => h, fun _ hf => ?_⟩
    show framesOk p.input.length
      (⟨kind, p.position + length⟩ :: p.structures) = true
    unfold framesOk
    rw [Bool.and_eq_true]
    refine ⟨decide_eq_true ?_, hf⟩
    show p.position + length ≤ stackBound p.input.length p.structures
    omega

/-- The per-type dispatch obeys the step contract. -/
theorem stepOk_dispatch (q : Parser) (value_type length : Nat) :
    StepOk q (q.dispatch_value value_type length).2 := by
  unfold Parser.dispatch_value
  by_cases ht0 : value_type = 0x01
  · rw [if_pos ht0]; exact stepOk_read_boolean q length
  · rw [if_neg ht0]
    by_cases ht1 : value_type = 0x02
    · rw [if_pos ht1]; exact stepOk_read_integer q length
    · rw [if_neg ht1]
      by_cases ht2 : value_type = 0x03
      · rw [if_pos ht2]; exact (stepOk_read_unimplemented q length).1
      · rw [if_neg ht2]
        by_cases ht3 : value_type = 0x04
        · rw [if_pos ht3]; exact stepOk_read_octet_string q length
        · rw [if_neg ht3]
          by_cases ht4 : value_type = 0x05
          · rw [if_pos ht4]; exact stepOk_read_null q length
          · rw [if_neg ht4]
            by_cases ht5 : value_type = 0x06
            · rw [if_pos ht5]; exact stepOk_read_object_identifier q length
            · rw [if_neg ht5]
              by_cases ht6 : value_type = 0x0C
              · rw [if_pos ht6]; exact stepOk_read_utf8_string q length
              · rw [if_neg ht6]
                by_cases ht7 : value_type = 0x13
                · rw [if_pos ht7]; exact stepOk_read_printable_string q length
                · rw [if_neg ht7]
                  by_cases ht8 : value_type = 0x16
                  · rw [if_pos ht8]; exact (stepOk_read_unimplemented q length).2.1
                  · rw [if_neg ht8]
                    by_cases ht9 : value_type = 0x1E
                    · rw [if_pos ht9]; exact (stepOk_read_unimplemented q length).2.2
                    · rw [if_neg ht9]
                      by_cases ht10 : value_type = 0x30
                      · rw [if_pos ht10]; exact stepOk_read_structure q length .Sequence
                      · rw [if_neg ht10]
                        by_cases ht11 : value_type = 0x31
                        · rw [if_pos ht11]; exact stepOk_read_structure q length .Set
                        · rw [if_neg ht11]
                          exact stepOk_refl q

/-- `next_value` obeys the step contract. -/
theorem stepOk_next_value (p : Parser) : StepOk p (p.next_value).2 := by
  unfold Parser.next_value
  have b1 := stepOk_consume_one p
  cases h1 : p.consume_one with
  | mk r1 p1 =>
    rw [h1] at b1
    cases r1 with
    | error e => exact b1
    | ok value_type =>
      change StepOk p ((match p1.read_length with
        | (.error e, p2) => ((.error e : Except Error Asn1Value), p2)
        | (.ok length, p2) => p2.dispatch_value value_type length).2)
      have b2 := stepOk_read_length p1
      cases h2 : p1.read_length with
      | mk r2 p2 =>
        rw [h2] at b2
        have b12 : StepOk p p2 := stepOk_trans b1 b2
        cases r2 with
        | error e => exact b12
        | ok length => exact stepOk_trans b12 (stepOk_dispatch p2 value_type length)

/-- Discarding the innermost frame preserves stack well-formedness. -/
theorem framesOk_tail (len : Nat) (s : Structure) (rest : List Structure)
    (h : framesOk len (s :: rest) = true) : framesOk len rest = true := by
  unfold framesOk at h
  rw [Bool.and_eq_true] at h
  exact h.2

/-- `next` obeys the step contract. -/
theorem stepOk_next (p : Parser) : StepOk p (p.next).2 := by
  unfold Parser.next
  cases hs : p.structures with
  | nil => exact stepOk_next_value p
  | cons innermost rest =>
    change StepOk p ((if innermost.end_position ≤ p.position then
        (if innermost.end_position ≠ p.position then
          ((.error .StructureOverrun : Except Error Asn1Value), p)
        else
          (.ok (match innermost.kind with
                | .Sequence => .SequenceEnd
                | .Set => .SetEnd),
           { p with structures := rest }))
      else p.next_value).2)
    by_cases hend : innermost.end_position ≤ p.position
    · rw [if_pos hend]
      by_cases hne : innermost.end_position ≠ p.position
      · rw [if_pos hne]
        exact stepOk_refl p
      · rw [if_neg hne]
        refine ⟨le_refl _, rfl, fun h => h, fun _ hf => ?_⟩
        rw [hs] at hf
        exact framesOk_tail p.input.length innermost rest hf
    · rw [if_neg hend]
      exact stepOk_next_value p

/-- C5: every `next()` call — succeeding or failing — preserves the
parser-state invariant: the cursor does not decrease, the input buffer is
unchanged, the cursor stays within the buffer, and the nesting-stack
frames remain strictly nested with every end offset bounded by the frame
below and by the buffer length. -/
theorem next_preserves_invariant (p : Parser)
    (hpos : p.position ≤ p.input.length)
    (hframes : framesOk p.input.length p.structures = true) :
    p.position ≤ (p.next).2.position ∧
    (p.next).2.input = p.input ∧
    (p.next).2.position ≤ (p.next).2.input.length ∧
    framesOk (p.next).2.input.length (p.next).2.structures = true := by
  obtain ⟨a, b, c, d⟩ := stepOk_next p
  have hd := d hpos hframes
  rw [b] at hd
  exact ⟨a, b, c hpos, by rwa [b]⟩

/-- C5 witness: the invariant-preservation theorem applied to a fresh
parser over the buffer `30 03 01 01 FF`, whose first `next()` call pushes
a frame. -/
theorem next_preserves_invariant_witness :
    (Parser.new [0x30, 0x03, 0x01, 0x01, 0xff]).position ≤
      ((Parser.new [0x30, 0x03, 0x01, 0x01, 0xff]).next).2.position ∧
    ((Parser.new [0x30, 0x03, 0x01, 0x01, 0xff]).next).2.input =
      (Parser.new [0x30, 0x03, 0x01, 0x01, 0xff]).input ∧
    ((Parser.new [0x30, 0x03, 0x01, 0x01, 0xff]).next).2.position ≤
      ((Parser.new [0x30, 0x03, 0x01, 0x01, 0xff]).next).2.input.length ∧
    framesOk ((Parser.new [0x30, 0x03, 0x01, 0x01, 0xff]).next).2.input.length
      ((Parser.new [0x30, 0x03, 0x01, 0x01, 0xff]).next).2.structures = true :=
  next_preserves_invariant (Parser.new [0x30, 0x03, 0x01, 0x01, 0xff])
    (by decide) (by decide)

end Asn1
